import Mathlib

/-!
Shallow embedding of the core of the `schuh` catalog backend
(Predicate Builder `WhereBuilder`, Pagination Helper `createPageable`,
Read Service `SchuhService`, Write Service `SchuhWriteService`) and proofs
about it.  Machine numbers of the source are modelled as `Int`/`Rat`;
fallible operations return `Except ServiceError`; the Prisma data-store
client is modelled as a pure state (`Store`) with list-based tables.
-/

/-! ## Modelling of the JavaScript number conversions used by the source -/

/-- Value of a list of decimal digit characters, most significant first. -/
def digitsToNat (ds : List Char) : Nat :=
  ds.foldl (fun acc c => 10 * acc + (c.toNat - 48)) 0

/-- Model of JavaScript `toLowerCase()` on the ASCII strings the system
handles: character-wise lowering. -/
def strToLower (s : String) : String :=
  ⟨s.data.map Char.toLower⟩

/-- Model of JavaScript `toUpperCase()` on the ASCII strings the system
handles: character-wise raising. -/
def strToUpper (s : String) : String :=
  ⟨s.data.map Char.toUpper⟩

/-- Classification of a JavaScript `Number()` result, as far as the source
inspects it (`isNaN` and `Number.isInteger`): `NaN`, an integral value, or
a numeric but non-integral value. -/
inductive JsNum where
  | nan : JsNum
  | int (n : ℤ) : JsNum
  | nonint : JsNum
deriving DecidableEq, Repr

/-- Unsigned part of a decimal literal: a digit run, optionally followed by
a point and a second digit run (either run may be empty, not both).  The
result `(mantissa, scale)` denotes the value `mantissa / 10 ^ scale`. -/
def parseUnsignedDec (cs : List Char) : Option (ℕ × ℕ) :=
  let intPart := cs.takeWhile Char.isDigit
  let rest := cs.dropWhile Char.isDigit
  match rest with
  | [] => if intPart.isEmpty then none else some (digitsToNat intPart, 0)
  | c :: frac =>
    if c = '.' ∧ frac.all Char.isDigit ∧ ¬(intPart.isEmpty ∧ frac.isEmpty) then
      some (digitsToNat intPart * 10 ^ frac.length + digitsToNat frac, frac.length)
    else none

/-- Classify the decimal value `mantissa / 10 ^ scale` with the given sign
the way `isNaN`/`Number.isInteger` would. -/
def classifyDec (neg : Bool) (mantissa scale : ℕ) : JsNum :=
  if mantissa % 10 ^ scale = 0 then
    let n : ℤ := (mantissa / 10 ^ scale : ℕ)
    JsNum.int (if neg then -n else n)
  else JsNum.nonint

/-- Model of the JavaScript `Number()` conversion as applied by
`createPageable` to an optional query-string value: `Number(undefined)` is
`NaN`, `Number('')` is `0`, and a signed decimal literal is parsed exactly.
Strings outside the decimal-literal fragment (hex, exponents, surrounding
whitespace) do not occur in the verified claims and are mapped to `NaN`. -/
def jsNumber : Option String → JsNum
  | none => JsNum.nan
  | some s =>
    match s.data with
    | [] => JsNum.int 0
    | c :: cs =>
      if c = '-' then
        match parseUnsignedDec cs with
        | some (m, k) => classifyDec true m k
        | none => JsNum.nan
      else if c = '+' then
        match parseUnsignedDec cs with
        | some (m, k) => classifyDec false m k
        | none => JsNum.nan
      else
        match parseUnsignedDec (c :: cs) with
        | some (m, k) => classifyDec false m k
        | none => JsNum.nan

/-- Model of the JavaScript `parseInt(s, 10)` conversion on the character
list of `s`: optional sign, then the maximal leading digit run; `none`
models the `NaN` result when no leading digit exists. -/
def jsParseInt (cs : List Char) : Option ℤ :=
  match cs with
  | [] => none
  | c :: rest =>
    if c = '-' then
      let ds := rest.takeWhile Char.isDigit
      if ds.isEmpty then none else some (-(digitsToNat ds : ℤ))
    else if c = '+' then
      let ds := rest.takeWhile Char.isDigit
      if ds.isEmpty then none else some (digitsToNat ds : ℤ)
    else
      let ds := (c :: rest).takeWhile Char.isDigit
      if ds.isEmpty then none else some (digitsToNat ds : ℤ)

/-! ## Pagination Helper (`pageable.ts`) -/

def DEFAULT_PAGE_SIZE : ℤ := 5

def MAX_PAGE_SIZE : ℤ := 100

def DEFAULT_PAGE_NUMBER : ℤ := 0

/-- Normalized paging descriptor (`Pageable`). -/
structure Pageable where
  number : ℤ
  size : ℤ
deriving DecidableEq, Repr

/-- Embedding of `createPageable` from `pageable.ts`: both inputs run
through `Number()`; a `NaN` or non-integer page number falls back to the
default `0`, a supplied one is decremented and clamped at `0`; a `NaN` or
non-integer size falls back to the default `5`, and an integer size outside
`[1, 100]` is reset to `DEFAULT_PAGE_NUMBER` (that is `0`, not `5`). -/
def createPageable (number size : Option String) : Pageable :=
  let numberInt : ℤ :=
    match jsNumber number with
    | JsNum.nan => DEFAULT_PAGE_NUMBER
    | JsNum.nonint => DEFAULT_PAGE_NUMBER
    | JsNum.int n =>
      if n - 1 < 0 then DEFAULT_PAGE_NUMBER
      else n - 1
  let sizeInt : ℤ :=
    match jsNumber size with
    | JsNum.nan => DEFAULT_PAGE_SIZE
    | JsNum.nonint => DEFAULT_PAGE_SIZE
    | JsNum.int n =>
      if n < 1 ∨ MAX_PAGE_SIZE < n then DEFAULT_PAGE_NUMBER
      else n
  { number := numberInt, size := sizeInt }

/-! ## Data model -/

/-- The `Schuhtyp` enumeration of the Prisma schema. -/
inductive Schuhtyp where
  | Sneaker
  | Laufschuh
  | Tennisschuh
  | Freizeitschuh
  | Skateschuh
deriving DecidableEq, Repr

/-- A product record of the `schuh` table, joined with its 1:1 `modell`
sub-record (the read paths under verification always include the model;
image sub-records are outside the verified claims). -/
structure Schuh where
  id : ℤ
  version : ℤ
  artikelnummer : String
  bewertung : ℤ
  typ : Option Schuhtyp
  preis : ℚ
  rabattsatz : ℚ
  verfuegbar : Bool
  erscheinungsdatum : Option String
  homepage : Option String
  schlagwoerter : List String
  modell : String
deriving DecidableEq, Repr

/-- A row of the `schuh_file` table (binary attachment, 1:1 per product). -/
structure SchuhFile where
  id : ℤ
  data : List ℕ
  filename : String
  mimetype : Option String
  schuhId : ℤ
deriving DecidableEq, Repr

/-- The relational store visible to the services (the Prisma client is the
external Data Store Client; its tables are modelled as lists, its identity
sequences as counters starting at 1000 as in the DDL). -/
structure Store where
  schuhe : List Schuh
  files : List SchuhFile
  nextId : ℤ := 1000
  nextFileId : ℤ := 1000
deriving DecidableEq, Repr

/-- Lookup `findUnique` on the `schuh` table. -/
def getSchuh (st : Store) (id : ℤ) : Option Schuh :=
  st.schuhe.find? (fun s => s.id == id)

/-! ## Predicate Builder (`where-builder.ts`) -/

/-- Search parameters as they arrive from the query string or the GraphQL
input object: a string-keyed mapping with string values, in insertion
order (`Suchparameter`). -/
def Suchparameter := List (String × String)
deriving DecidableEq, Repr

/-- First value bound to a key of the mapping, `none` for an absent key. -/
def lookupParam (ps : Suchparameter) (k : String) : Option String :=
  (List.find? (fun kv => kv.1 == k) ps).map (fun kv => kv.2)

/-- The scalar-field part of a `SchuhWhereInput` as the `build` switch
assembles it: one optional condition per recognized scalar field. -/
structure SchuhWhere where
  modell : Option String := none
  artikelnummer : Option String := none
  bewertung : Option ℤ := none
  preis : Option ℤ := none
  typ : Option Schuhtyp := none
  verfuegbar : Option Bool := none
  erscheinungsdatum : Option String := none
  homepage : Option String := none
deriving DecidableEq, Repr

/-- The filter expression returned by `WhereBuilder.build`: either only the
scalar conditions, only an `OR` of tag conditions, or their conjunction
(`AND [where, OR tagConditions]`). -/
inductive Where where
  | base (w : SchuhWhere)
  | or (tags : List String)
  | and (w : SchuhWhere) (tags : List String)
deriving DecidableEq, Repr

/-- Case-insensitive mapping of a free-text category value onto the
`Schuhtyp` enumeration (`WhereBuilder.#mapTyp`). -/
def WhereBuilder.mapTyp (value : String) : Option Schuhtyp :=
  if strToLower value = "sneaker" then some Schuhtyp.Sneaker
  else if strToLower value = "laufschuh" then some Schuhtyp.Laufschuh
  else if strToLower value = "tennisschuh" then some Schuhtyp.Tennisschuh
  else if strToLower value = "freizeitschuh" then some Schuhtyp.Freizeitschuh
  else if strToLower value = "skateschuh" then some Schuhtyp.Skateschuh
  else none

/-- One iteration of the `switch` in `WhereBuilder.build` over an entry of
the rest properties (all parameters except the three tag flags). -/
def whereStep (w : SchuhWhere) (kv : String × String) : SchuhWhere :=
  let value := kv.2
  if kv.1 = "modell" then { w with modell := some value }
  else if kv.1 = "artikelnummer" then { w with artikelnummer := some value }
  else if kv.1 = "bewertung" then
    match jsParseInt value.data with
    | some n => { w with bewertung := some n }
    | none => w
  else if kv.1 = "preis" then
    match jsParseInt value.data with
    | some n => { w with preis := some n }
    | none => w
  else if kv.1 = "typ" then
    match WhereBuilder.mapTyp value with
    | some t => { w with typ := some t }
    | none => w
  else if kv.1 = "verfuegbar" then { w with verfuegbar := some (strToLower value = "true") }
  else if kv.1 = "erscheinungsdatum" then { w with erscheinungsdatum := some value }
  else if kv.1 = "homepage" then { w with homepage := some value }
  else w

/-- The scalar part of `WhereBuilder.build`: iterate the rest properties
(the mapping minus the destructured tag flags) through the `switch`. -/
def WhereBuilder.buildRest (ps : Suchparameter) : SchuhWhere :=
  (ps.filter fun kv =>
    !(kv.1 == "sport" || kv.1 == "streetware" || kv.1 == "vintage")).foldl whereStep {}

/-- Embedding of `WhereBuilder.#buildSchlagwoerter`: each truthy tag flag contributes
its canonical stored tag (the flag `streetware` maps onto the stored value
"streetwear"). -/
def WhereBuilder.buildSchlagwoerter
    (sport vintage streetware : Option String) : List String :=
  (if sport.map strToLower = some "true" then ["sport"] else []) ++
    (if vintage.map strToLower = some "true" then ["vintage"] else []) ++
      (if streetware.map strToLower = some "true" then ["streetwear"] else [])

/-- The canonical tags requested by the flags present in the mapping. -/
def requestedTags (ps : Suchparameter) : List String :=
  WhereBuilder.buildSchlagwoerter
    (lookupParam ps "sport") (lookupParam ps "vintage") (lookupParam ps "streetware")

/-- Helper of `setDedup`: skip elements already seen. -/
def setDedupAux (seen : List String) : List String → List String
  | [] => []
  | t :: ts =>
    if seen.contains t then setDedupAux seen ts
    else t :: setDedupAux (t :: seen) ts

/-- Model of `new Set(...)` on a list: deduplication keeping first occurrences. -/
def setDedup (l : List String) : List String :=
  setDedupAux [] l

/-- Embedding of `WhereBuilder.build`: scalar conditions from the switch;
when at least one tag was requested, an `OR` over `array_contains` of the
requested tags together with their lowercase and uppercase variants is
conjoined (or stands alone when no scalar condition was produced). -/
def WhereBuilder.build (ps : Suchparameter) : Where :=
  let w := WhereBuilder.buildRest ps
  let schlagwoerter := requestedTags ps
  if 0 < schlagwoerter.length then
    let tags := setDedup (schlagwoerter.flatMap fun t => [t, strToLower t, strToUpper t])
    if w = {} then Where.or tags
    else Where.and w tags
  else Where.base w

/-! ### Evaluation of a filter expression against a record

The Data Store Client is external; this is the model of how the store
evaluates the produced `SchuhWhereInput` on one row: case-insensitive
substring for `contains/insensitive`, plain equality for `equals`, `<=`
and `>=` for `lte`/`gte` (ISO date strings compare lexicographically, which
coincides with the calendar order), and JSON containment for
`array_contains` (`null`-valued columns never satisfy a comparison). -/

/-- One optional condition: absent conditions hold trivially. -/
def condHolds {α : Type} (c : Option α) (p : α → Bool) : Bool :=
  match c with
  | none => true
  | some v => p v

/-- Whether `needle` occurs as a contiguous substring of `hay`. -/
def containsSub (needle : List Char) : List Char → Bool
  | [] => needle.isEmpty
  | c :: cs => needle.isPrefixOf (c :: cs) || containsSub needle cs

/-- Lexicographic less-or-equal on character lists; on ISO `YYYY-MM-DD`
date strings this coincides with the calendar order. -/
def charListLe : List Char → List Char → Bool
  | [], _ => true
  | _ :: _, [] => false
  | a :: as, b :: bs =>
    Nat.blt a.toNat b.toNat || (a == b && charListLe as bs)

/-- Evaluation of the scalar conditions of a `SchuhWhereInput` on a row. -/
def evalBase (w : SchuhWhere) (r : Schuh) : Bool :=
  condHolds w.modell (fun m => containsSub (strToLower m).data (strToLower r.modell).data) &&
  condHolds w.artikelnummer (fun a => r.artikelnummer == a) &&
  condHolds w.bewertung (fun b => b ≤ r.bewertung) &&
  condHolds w.preis (fun p => r.preis ≤ (p : ℚ)) &&
  condHolds w.typ (fun t => r.typ == some t) &&
  condHolds w.verfuegbar (fun v => r.verfuegbar == v) &&
  condHolds w.erscheinungsdatum (fun d =>
    match r.erscheinungsdatum with
    | none => false
    | some rd => charListLe d.data rd.data) &&
  condHolds w.homepage (fun h =>
    match r.homepage with
    | none => false
    | some rh => rh == h)

/-- Evaluation of the `OR` of `array_contains` tag conditions on a row. -/
def evalTags (tags : List String) (r : Schuh) : Bool :=
  tags.any fun t => r.schlagwoerter.contains t

/-- Evaluation of the whole filter expression on a row. -/
def evalWhere (w : Where) (r : Schuh) : Bool :=
  match w with
  | Where.base b => evalBase b r
  | Where.or tags => evalTags tags r
  | Where.and b tags => evalBase b r && evalTags tags r

/-! ## Read Service (`schuh-service.ts`) -/

/-- The named failure conditions the core raises (`NotFoundException`,
`IsbnExistsException`, `VersionInvalidException`,
`VersionOutdatedException`), plus `StoreFailure` for a failure surfaced by
the external store itself (constraint violation, missing row on a
mutation), which the core propagates unmodified. -/
inductive ServiceError where
  | NotFound
  | IsbnExists
  | VersionInvalid
  | VersionOutdated
  | StoreFailure
deriving DecidableEq, Repr

deriving instance DecidableEq for Except

/-- A page of results plus a total-count figure (`Slice`). -/
structure Slice where
  content : List Schuh
  totalElements : ℕ
deriving DecidableEq, Repr

/-- Page slicing with `skip = number * size` and `take = size`. -/
def applyPage (l : List Schuh) (pg : Pageable) : List Schuh :=
  ((l.drop (pg.number * pg.size).toNat).take pg.size.toNat)

/-- Embedding of `SchuhService.count`: the unconditional row count of the `schuh`
table. -/
def SchuhService.count (st : Store) : ℕ :=
  st.schuhe.length

/-- The fixed recognized-name list `suchparameterNamen`. -/
def suchparameterNamen : List String :=
  ["artikelnummer", "rating", "typ", "preis", "rabattsatz", "verfuegbar",
   "erscheinungsdatum", "homepage", "schlagwoerter", "modell"]

/-- Embedding of `SchuhService.#checkKeys`: every key is a recognized name or one of
the three tag flags. -/
def SchuhService.checkKeys (keys : List String) : Bool :=
  keys.all fun key =>
    suchparameterNamen.contains key || key == "vintage" ||
      key == "streetware" || key == "sport"

/-- Embedding of `SchuhService.#checkEnums`: an exact-spelling check of the `typ` value
against the five enumeration members. -/
def SchuhService.checkEnums (ps : Suchparameter) : Bool :=
  match lookupParam ps "typ" with
  | none => true
  | some typ =>
    typ == "Sneaker" || typ == "Laufschuh" || typ == "Tennisschuh" ||
      typ == "Freizeitschuh" || typ == "Skateschuh"

/-- Embedding of `SchuhService.#findAll`: the unfiltered paginated listing; an empty
page raises `NotFound`, a non-empty one is returned with the unconditional
total count. -/
def SchuhService.findAll (pg : Pageable) (st : Store) : Except ServiceError Slice :=
  if (applyPage st.schuhe pg).isEmpty then Except.error ServiceError.NotFound
  else Except.ok { content := applyPage st.schuhe pg,
                   totalElements := SchuhService.count st }

/-- Embedding of `SchuhService.find`: absent or empty parameters delegate
to the unfiltered listing; invalid names or an invalid enum value raise
`NotFound`; otherwise the predicate is built, the page sliced out, an
empty result raises `NotFound`, and a non-empty slice carries the
unconditional total count. -/
def SchuhService.find (sp : Option Suchparameter) (pg : Pageable) (st : Store) :
    Except ServiceError Slice :=
  match sp with
  | none => SchuhService.findAll pg st
  | some ps =>
    if ps.length = 0 then SchuhService.findAll pg st
    else if !SchuhService.checkKeys (ps.map Prod.fst) || !SchuhService.checkEnums ps then
      Except.error ServiceError.NotFound
    else if (applyPage (st.schuhe.filter (evalWhere (WhereBuilder.build ps))) pg).isEmpty then
      Except.error ServiceError.NotFound
    else
      Except.ok { content := applyPage (st.schuhe.filter (evalWhere (WhereBuilder.build ps))) pg,
                  totalElements := SchuhService.count st }

/-- Embedding of `SchuhService.findById`: the row or `NotFound`. -/
def SchuhService.findById (id : ℤ) (st : Store) : Except ServiceError Schuh :=
  match getSchuh st id with
  | none => Except.error ServiceError.NotFound
  | some s => Except.ok s

/-! ## Write Service (`schuh-write-service.ts`) -/

/-- After the opening quote: accept when some non-empty run of at most
`fuel` digits is followed by a closing quote (the characters after that
closing quote are unconstrained). -/
def digitsThenQuote : List Char → ℕ → Bool
  | _, 0 => false
  | [], _ + 1 => false
  | c :: cs, n + 1 =>
    c.isDigit && (cs.head? == some '"' || digitsThenQuote cs n)

/-- Embedding of `VERSION_PATTERN.test(versionStr)` for the regular
expression anchored only at the start: an opening quote, one to three
digits, a closing quote, then anything. -/
def versionPatternTest (s : String) : Bool :=
  match s.data with
  | [] => false
  | c :: cs => c == '"' && digitsThenQuote cs 3

/-- Embedding of `SchuhWriteService.#validateUpdate`: pattern check, then parse of
`versionStr.slice(1, -1)`, then the load of the current record and the
strictly-less-than comparison with the stored version.  A `NaN` parse
result makes the JavaScript comparison `NaN < stored` false, so the check
passes in that case. -/
def SchuhWriteService.validateUpdate (id : ℤ) (versionStr : String) (st : Store) :
    Except ServiceError Unit :=
  if !versionPatternTest versionStr then Except.error ServiceError.VersionInvalid
  else
    let parsed := jsParseInt ((versionStr.data.drop 1).dropLast)
    match SchuhService.findById id st with
    | Except.error e => Except.error e
    | Except.ok schuhDb =>
      match parsed with
      | none => Except.ok ()
      | some version =>
        if version < schuhDb.version then Except.error ServiceError.VersionOutdated
        else Except.ok ()

/-- The patch of an update (`SchuhUpdateInput`): optional new values per
column; the version counter is not part of it, the service itself sets
`version = increment 1`. -/
structure SchuhUpdate where
  artikelnummer : Option String := none
  bewertung : Option ℤ := none
  typ : Option (Option Schuhtyp) := none
  preis : Option ℚ := none
  rabattsatz : Option ℚ := none
  verfuegbar : Option Bool := none
  erscheinungsdatum : Option (Option String) := none
  homepage : Option (Option String) := none
  schlagwoerter : Option (List String) := none
  modell : Option String := none
deriving DecidableEq, Repr

/-- Apply a patch to a row, incrementing the version by exactly one. -/
def applyUpdate (u : SchuhUpdate) (s : Schuh) : Schuh :=
  { s with
    artikelnummer := u.artikelnummer.getD s.artikelnummer
    bewertung := u.bewertung.getD s.bewertung
    typ := u.typ.getD s.typ
    preis := u.preis.getD s.preis
    rabattsatz := u.rabattsatz.getD s.rabattsatz
    verfuegbar := u.verfuegbar.getD s.verfuegbar
    erscheinungsdatum := u.erscheinungsdatum.getD s.erscheinungsdatum
    homepage := u.homepage.getD s.homepage
    schlagwoerter := u.schlagwoerter.getD s.schlagwoerter
    modell := u.modell.getD s.modell
    version := s.version + 1 }

/-- Replace the row with the given id. -/
def replaceSchuh (st : Store) (id : ℤ) (s : Schuh) : Store :=
  { st with schuhe := st.schuhe.map fun r => if r.id == id then s else r }

/-- Model of `tx.schuh.update` inside the transaction: fails at the store level
when no row has the id. -/
def storeUpdate (st : Store) (id : ℤ) (u : SchuhUpdate) : Option (Schuh × Store) :=
  (getSchuh st id).map fun s =>
    let s := applyUpdate u s
    (s, replaceSchuh st id s)

/-- Embedding of `SchuhWriteService.update`: an undefined id raises
`NotFound`; then `#validateUpdate`; then the transactional write with the
incremented version; the new version number is returned. -/
def SchuhWriteService.update (id : Option ℤ) (u : SchuhUpdate) (version : String)
    (st : Store) : Except ServiceError (ℤ × Store) :=
  match id with
  | none => Except.error ServiceError.NotFound
  | some id =>
    match SchuhWriteService.validateUpdate id version st with
    | Except.error e => Except.error e
    | Except.ok _ =>
      match storeUpdate st id u with
      | none => Except.error ServiceError.StoreFailure
      | some (s, st) => Except.ok (s.version, st)

/-! ### Binary attachment (`SchuhWriteService.addFile`) -/

/-- A pending JavaScript Promise holding a value of type `α`.  In
`addFile` the result of `tx.schuh.findUnique(...)` is bound *without*
`await`, so the bound variable holds such a Promise object. -/
structure Promise (α : Type) where
  val : α

/-- The strict comparison `p === null` for a Promise object: always
false, whatever the Promise will resolve to. -/
def Promise.isNull {α : Type} (_p : Promise α) : Bool :=
  false

/-- Embedding of `SchuhWriteService.addFile`.  `sniff` models the external
`fileTypeFromBuffer` content sniffing (best-effort, `none` when
undetected).  The existence lookup is bound without `await`, so the
`NotFound` branch tests a Promise object against `null`; the later
`schuhFile.create` enforces the schema's foreign key, so a missing product
surfaces as a store-level failure instead. -/
def SchuhWriteService.addFile (sniff : List ℕ → Option String) (schuhId : ℤ)
    (data : List ℕ) (filename : String) (size : ℕ) (st : Store) :
    Except ServiceError (SchuhFile × Store) :=
  let _ := size
  let schuh := Promise.mk (getSchuh st schuhId)
  if schuh.isNull then Except.error ServiceError.NotFound
  else
    let afterDelete := { st with files := st.files.filter fun f => !(f.schuhId == schuhId) }
    let mimetype := sniff data
    match getSchuh st schuhId with
    | none => Except.error ServiceError.StoreFailure
    | some _ =>
      let schuhFile : SchuhFile :=
        { id := st.nextFileId, data := data, filename := filename,
          mimetype := mimetype, schuhId := schuhId }
      Except.ok (schuhFile,
        { afterDelete with
          files := afterDelete.files ++ [schuhFile]
          nextFileId := st.nextFileId + 1 })

/-! ### Creation (`SchuhWriteService.create`) -/

/-- The payload of a create call (`SchuhCreateInput` with its nested
model label; image sub-records are outside the verified claims). -/
structure SchuhCreate where
  artikelnummer : Option String := none
  bewertung : ℤ := 0
  typ : Option Schuhtyp := none
  preis : ℚ := 0
  rabattsatz : ℚ := 0
  verfuegbar : Bool := false
  erscheinungsdatum : Option String := none
  homepage : Option String := none
  schlagwoerter : List String := []
  modell : String := ""
deriving DecidableEq, Repr

/-- Embedding of `SchuhWriteService.#validateCreate`: with a defined article code, a
count-based uniqueness check that raises the dedicated code-exists
condition. -/
def SchuhWriteService.validateCreate (schuh : SchuhCreate) (st : Store) :
    Except ServiceError Unit :=
  match schuh.artikelnummer with
  | none => Except.ok ()
  | some artikelnummer =>
    let anzahl := (st.schuhe.filter fun s => s.artikelnummer == artikelnummer).length
    if 0 < anzahl then Except.error ServiceError.IsbnExists
    else Except.ok ()

/-- Model of `tx.schuh.create` inside the transaction: the store assigns the next
identity value and a version of 0; a missing article code violates the
NOT NULL column and fails at the store level. -/
def storeCreate (schuh : SchuhCreate) (st : Store) :
    Except ServiceError (Schuh × Store) :=
  match schuh.artikelnummer with
  | none => Except.error ServiceError.StoreFailure
  | some artikelnummer =>
    let neu : Schuh :=
      { id := st.nextId, version := 0, artikelnummer := artikelnummer,
        bewertung := schuh.bewertung, typ := schuh.typ, preis := schuh.preis,
        rabattsatz := schuh.rabattsatz, verfuegbar := schuh.verfuegbar,
        erscheinungsdatum := schuh.erscheinungsdatum, homepage := schuh.homepage,
        schlagwoerter := schuh.schlagwoerter, modell := schuh.modell }
    Except.ok (neu, { st with schuhe := st.schuhe ++ [neu], nextId := st.nextId + 1 })

/-- Modelled from the spec: the class `MailService` (file
`src/mail/mail-service.ts`) is absent from the snapshot; only its import
and its call site in the Write Service are present.  The spec's contract
for the Notification Sink reads "send(subject, body) -> Promise of void;
failures are not propagated to the caller of create()", and for create
"if notification delivery fails, this must not roll back or fail the
create (treat as best-effort side effect)".  The Boolean argument tells
whether the underlying delivery rejects this send; the mail service
catches that rejection internally and returns normally either way. -/
def MailService.sendmail (sinkRejects : Bool) (subject body : String) :
    Except ServiceError Unit :=
  let _ := subject
  let _ := body
  let delivery : Except ServiceError Unit :=
    if sinkRejects then Except.error ServiceError.StoreFailure else Except.ok ()
  match delivery with
  | Except.error _ => Except.ok ()
  | Except.ok _ => Except.ok ()

/-- Embedding of `SchuhWriteService.#sendmail`: subject and body derived from the new
id and model label, handed to the mail service. -/
def SchuhWriteService.sendmail (sinkRejects : Bool) (id : ℤ) (modell : String) :
    Except ServiceError Unit :=
  MailService.sendmail sinkRejects
    ("Neues Schuh " ++ toString id)
    ("Das Schuh mit dem Modell <strong>" ++ modell ++ "</strong> ist angelegt")

/-- Embedding of `SchuhWriteService.create`: uniqueness validation, the
transactional insert, then the awaited notification send (a rejection of
the awaited send *would* propagate — the catch lives inside the mail
service), and the new identifier is returned. -/
def SchuhWriteService.create (sinkRejects : Bool) (schuh : SchuhCreate) (st : Store) :
    Except ServiceError (ℤ × Store) :=
  match SchuhWriteService.validateCreate schuh st with
  | Except.error e => Except.error e
  | Except.ok _ =>
    match storeCreate schuh st with
    | Except.error e => Except.error e
    | Except.ok (schuhDb, st) =>
      match SchuhWriteService.sendmail sinkRejects schuhDb.id schuhDb.modell with
      | Except.error e => Except.error e
      | Except.ok _ => Except.ok (schuhDb.id, st)

/-! ## Sample data used by the concrete witnesses -/

/-- A concrete product row. -/
def sampleSchuh : Schuh :=
  { id := 1, version := 5, artikelnummer := "SH001-ADNMD", bewertung := 3,
    typ := some Schuhtyp.Sneaker, preis := 99, rabattsatz := 0,
    verfuegbar := true, erscheinungsdatum := some "2024-03-15",
    homepage := some "https://example.org",
    schlagwoerter := ["sport"], modell := "Adidas NMD" }

/-- A second row, carrying none of the requested tags. -/
def sampleSchuh2 : Schuh :=
  { id := 2, version := 0, artikelnummer := "SH002-RUN", bewertung := 1,
    typ := some Schuhtyp.Laufschuh, preis := 50, rabattsatz := 0,
    verfuegbar := false, erscheinungsdatum := none, homepage := none,
    schlagwoerter := [], modell := "Nike Pegasus" }

/-- A store holding the two sample rows and no attachments. -/
def sampleStore : Store :=
  { schuhe := [sampleSchuh, sampleSchuh2], files := [], nextId := 1000, nextFileId := 1000 }

/-! ## Theorems about the Pagination Helper -/

/-- Claim C4: For every page-size input string: when the input is absent,
non-numeric, or non-integer the normalized size is 5 (the size default);
when it parses to an integer outside the bound [1, 100] the normalized
size is 0 (the page-number default, not the size default 5); when it
parses to an integer within [1, 100] the normalized size equals that
integer. -/
theorem claim4_page_size_normalization (number size : Option String) :
    (jsNumber size = JsNum.nan → (createPageable number size).size = 5) ∧
    (jsNumber size = JsNum.nonint → (createPageable number size).size = 5) ∧
    (∀ n : ℤ, jsNumber size = JsNum.int n → (n < 1 ∨ 100 < n) →
      (createPageable number size).size = 0) ∧
    (∀ n : ℤ, jsNumber size = JsNum.int n → 1 ≤ n → n ≤ 100 →
      (createPageable number size).size = n) := by
  refine ⟨fun h => ?_, fun h => ?_, fun n h hout => ?_, fun n h h1 h100 => ?_⟩ <;>
    simp only [createPageable, h, DEFAULT_PAGE_SIZE, DEFAULT_PAGE_NUMBER, MAX_PAGE_SIZE] <;>
    split <;> omega

/-- Witness for claim C4: the literal test from the spec, size="200" normalizes to
size 0 (and 200 is outside the bound). -/
theorem claim4_witness :
    jsNumber (some "200") = JsNum.int 200 ∧ (200 : ℤ) > 100 ∧
      (createPageable none (some "200")).size = 0 :=
  ⟨by decide, by decide,
    (claim4_page_size_normalization none (some "200")).2.2.1 200 (by decide)
      (Or.inr (by decide))⟩

/-- Claim C10: for every pair of (possibly absent, possibly malformed)
page-number and page-size input strings, the normalized descriptor has a
non-negative page number, a size that is 0, within [1, 100], or the
default 5, and hence a non-negative skip offset number * size. -/
theorem claim10_pageable_invariant (number size : Option String) :
    0 ≤ (createPageable number size).number ∧
    ((createPageable number size).size = 0 ∨
      (1 ≤ (createPageable number size).size ∧ (createPageable number size).size ≤ 100) ∨
      (createPageable number size).size = 5) ∧
    0 ≤ (createPageable number size).number * (createPageable number size).size := by
  have hn : 0 ≤ (createPageable number size).number := by
    cases h : jsNumber number <;>
      simp only [createPageable, h, DEFAULT_PAGE_NUMBER] <;> first
      | decide
      | (split <;> omega)
  have hs : (createPageable number size).size = 0 ∨
      (1 ≤ (createPageable number size).size ∧ (createPageable number size).size ≤ 100) ∨
      (createPageable number size).size = 5 := by
    cases h : jsNumber size <;>
      simp only [createPageable, h, DEFAULT_PAGE_NUMBER, DEFAULT_PAGE_SIZE, MAX_PAGE_SIZE] <;>
      first
      | (right; right; decide)
      | (split <;> omega)
  refine ⟨hn, hs, mul_nonneg hn ?_⟩
  rcases hs with h | ⟨h, _⟩ | h <;> omega

/-! ## Theorems about the optimistic-concurrency protocol -/

/-- Textual reading of the start-anchored pattern: the string begins with
an opening quote, one to three digits, and a closing quote; the characters
after that closing quote are arbitrary. -/
def quotedIntPrefixForm (s : String) : Prop :=
  ∃ ds rest, s.data = '"' :: ds ++ '"' :: rest ∧ ds ≠ [] ∧ ds.length ≤ 3 ∧
    ∀ c ∈ ds, c.isDigit

/-- Exact textual form of a well-formed version tag with value `v`: one to
three digits between the quotes and nothing else. -/
def QuotedIntTag (tag : String) (v : ℕ) : Prop :=
  ∃ ds, tag.data = '"' :: ds ++ ['"'] ∧ ds ≠ [] ∧ ds.length ≤ 3 ∧
    (∀ c ∈ ds, c.isDigit) ∧ digitsToNat ds = v

lemma digitsThenQuote_iff (n : ℕ) (cs : List Char) :
    digitsThenQuote cs n = true ↔
      ∃ ds rest, cs = ds ++ '"' :: rest ∧ ds ≠ [] ∧ ds.length ≤ n ∧
        ∀ c ∈ ds, c.isDigit := by
  induction n generalizing cs with
  | zero =>
    refine iff_of_false (by simp [digitsThenQuote]) ?_
    rintro ⟨ds, rest, -, hne, hlen, -⟩
    exact hne (List.length_eq_zero.mp (Nat.le_zero.mp hlen))
  | succ n ih =>
    cases cs with
    | nil =>
      refine iff_of_false (by simp [digitsThenQuote]) ?_
      rintro ⟨ds, rest, h, -, -, -⟩
      exact absurd h (by simp)
    | cons c cs =>
      simp only [digitsThenQuote, Bool.and_eq_true, Bool.or_eq_true, beq_iff_eq]
      constructor
      · rintro ⟨hd, hq | hrec⟩
        · obtain ⟨rest, hrest⟩ : ∃ rest, cs = '"' :: rest := by
            cases cs with
            | nil => simp at hq
            | cons a t => exact ⟨t, by simpa using congrArg (fun o => o.getD a) hq⟩
          exact ⟨[c], rest, by simp [hrest], by simp, by simp, by simpa using hd⟩
        · obtain ⟨ds, rest, hcs, hne, hlen, hdig⟩ := (ih cs).mp hrec
          refine ⟨c :: ds, rest, by simp [hcs], by simp, by simpa using hlen, ?_⟩
          intro x hx
          rcases List.mem_cons.mp hx with rfl | hx
          · exact hd
          · exact hdig x hx
      · rintro ⟨ds, rest, hcs, hne, hlen, hdig⟩
        cases ds with
        | nil => exact absurd rfl hne
        | cons d ds =>
          obtain ⟨rfl, hcs2⟩ : c = d ∧ cs = ds ++ '"' :: rest := by
            simpa using hcs
          refine ⟨hdig c (by simp), ?_⟩
          cases ds with
          | nil => left; simp [hcs2]
          | cons e es =>
            right
            refine (ih cs).mpr ⟨e :: es, rest, hcs2, by simp, ?_, ?_⟩
            · simpa using hlen
            · intro x hx
              exact hdig x (List.mem_cons_of_mem _ hx)

lemma versionPatternTest_iff (s : String) :
    versionPatternTest s = true ↔ quotedIntPrefixForm s := by
  unfold versionPatternTest quotedIntPrefixForm
  cases h : s.data with
  | nil =>
    refine iff_of_false (by simp) ?_
    rintro ⟨ds, rest, heq, -, -, -⟩
    exact absurd heq (by simp)
  | cons c cs =>
    rw [Bool.and_eq_true, beq_iff_eq, digitsThenQuote_iff]
    constructor
    · rintro ⟨rfl, ds, rest, rfl, hne, hlen, hdig⟩
      exact ⟨ds, rest, by simp, hne, hlen, hdig⟩
    · rintro ⟨ds, rest, heq, hne, hlen, hdig⟩
      obtain ⟨rfl, rfl⟩ : c = '"' ∧ cs = ds ++ '"' :: rest := by
        simpa using heq
      exact ⟨rfl, ds, rest, rfl, hne, hlen, hdig⟩

lemma isDigit_ne_special {c : Char} (h : c.isDigit) :
    c ≠ '-' ∧ c ≠ '+' ∧ c ≠ '"' := by
  refine ⟨?_, ?_, ?_⟩ <;> rintro rfl <;> exact absurd h (by decide)

lemma takeWhile_digits_append (ds tail : List Char) (hds : ∀ c ∈ ds, c.isDigit)
    (htail : ∀ c, tail.head? = some c → ¬ c.isDigit) :
    (ds ++ tail).takeWhile Char.isDigit = ds := by
  induction ds with
  | nil =>
    cases tail with
    | nil => rfl
    | cons c t =>
      simp only [List.nil_append, List.takeWhile_cons]
      rw [if_neg (by simpa using htail c rfl)]
  | cons d ds ih =>
    simp only [List.cons_append, List.takeWhile_cons]
    rw [if_pos (hds d (by simp)), ih (fun c hc => hds c (List.mem_cons_of_mem _ hc))]

lemma jsParseInt_digits_append (ds tail : List Char) (hne : ds ≠ [])
    (hds : ∀ c ∈ ds, c.isDigit)
    (htail : ∀ c, tail.head? = some c → ¬ c.isDigit) :
    jsParseInt (ds ++ tail) = some (digitsToNat ds : ℤ) := by
  cases ds with
  | nil => exact absurd rfl hne
  | cons d ds =>
    have hd := hds d (by simp)
    obtain ⟨h1, h2, -⟩ := isDigit_ne_special hd
    simp only [List.cons_append, jsParseInt, if_neg h1, if_neg h2]
    rw [show d :: (ds ++ tail) = (d :: ds) ++ tail from rfl,
      takeWhile_digits_append (d :: ds) tail hds htail]
    simp

/-- The integer extracted by `parseInt(versionStr.slice(1, -1), 10)` from a
string matching the version pattern is the value of the digits between the
quotes. -/
lemma slice_parse (tag : String) (ds rest : List Char)
    (h : tag.data = '"' :: (ds ++ '"' :: rest)) (hne : ds ≠ [])
    (hds : ∀ c ∈ ds, c.isDigit) :
    jsParseInt ((tag.data.drop 1).dropLast) = some (digitsToNat ds : ℤ) := by
  rw [h]
  simp only [List.drop_succ_cons, List.drop_zero]
  cases rest with
  | nil =>
    rw [show ds ++ ['"'] = ds ++ ['"'] from rfl, List.dropLast_concat]
    have := jsParseInt_digits_append ds [] hne hds (by simp)
    simpa using this
  | cons r rs =>
    rw [List.dropLast_append_of_ne_nil ds (by simp)]
    exact jsParseInt_digits_append ds (('"' :: r :: rs).dropLast) hne hds
      (by
        intro c hc hdig
        have hcq : c = '"' := by
          cases rs with
          | nil =>
            have h2 : '"' = c := by simpa using hc
            exact h2.symm
          | cons x xs =>
            have h2 : '"' = c := by simpa using hc
            exact h2.symm
        exact absurd hdig (hcq ▸ by decide))

/-- For an exactly quoted integer tag and an existing record, the version
validation reduces to the strictly-less-than comparison of the source. -/
lemma validateUpdate_quoted (id : ℤ) (st : Store) (sch : Schuh) (tag : String)
    (v : ℕ) (hs : getSchuh st id = some sch) (htag : QuotedIntTag tag v) :
    SchuhWriteService.validateUpdate id tag st =
      if (v : ℤ) < sch.version then Except.error ServiceError.VersionOutdated
      else Except.ok () := by
  obtain ⟨ds, hdata, hne, hlen, hds, hval⟩ := htag
  have hpat : versionPatternTest tag = true :=
    (versionPatternTest_iff tag).mpr ⟨ds, [], hdata, hne, hlen, hds⟩
  have hparse := slice_parse tag ds [] (by simp [hdata]) hne hds
  simp only [SchuhWriteService.validateUpdate, hpat, Bool.not_true,
    Bool.false_eq_true, if_false, SchuhService.findById, hs, hparse, hval]

/-- Claim C1: for every update call on an existing product (stored version s)
with a well-formed quoted integer version tag of value v: when v < s the
operation fails with the dedicated version-outdated condition; when v >= s
(the comparison is strictly-less-than, not not-equal) the version check
passes and the update commits, returning version s + 1. -/
theorem claim1_update_version_comparison (st : Store) (id : ℤ) (u : SchuhUpdate)
    (tag : String) (v : ℕ) (sch : Schuh)
    (hs : getSchuh st id = some sch) (htag : QuotedIntTag tag v) :
    ((v : ℤ) < sch.version →
      SchuhWriteService.update (some id) u tag st =
        Except.error ServiceError.VersionOutdated) ∧
    (sch.version ≤ (v : ℤ) →
      SchuhWriteService.update (some id) u tag st =
        Except.ok (sch.version + 1, replaceSchuh st id (applyUpdate u sch))) := by
  have hv := validateUpdate_quoted id st sch tag v hs htag
  constructor
  · intro hlt
    simp only [SchuhWriteService.update, hv, if_pos hlt]
  · intro hge
    simp only [SchuhWriteService.update, hv, if_neg (not_lt.mpr hge), storeUpdate, hs,
      Option.map_some']
    simp [applyUpdate]

/-- Witness for claim C1: against the sample record with stored version 5, the tag
"5" (equal) succeeds with new version 6 and the tag "4" (smaller) fails
with VersionOutdated. -/
theorem claim1_witness :
    getSchuh sampleStore 1 = some sampleSchuh ∧
    sampleSchuh.version = 5 ∧
    SchuhWriteService.update (some 1) {} "\"5\"" sampleStore =
      Except.ok (sampleSchuh.version + 1, replaceSchuh sampleStore 1 (applyUpdate {} sampleSchuh)) ∧
    SchuhWriteService.update (some 1) {} "\"4\"" sampleStore =
      Except.error ServiceError.VersionOutdated :=
  ⟨by decide, by decide,
    (claim1_update_version_comparison sampleStore 1 {} "\"5\"" 5 sampleSchuh (by decide)
      ⟨['5'], by decide, by decide, by decide, by decide, by decide⟩).2 (by decide),
    (claim1_update_version_comparison sampleStore 1 {} "\"4\"" 4 sampleSchuh (by decide)
      ⟨['4'], by decide, by decide, by decide, by decide, by decide⟩).1 (by decide)⟩

/-- Claim C2 as amended: the version pattern is anchored only at the start: the
test accepts exactly the strings that *begin* with a quoted 1-to-3-digit
integer, trailing characters included; every string not of that prefix
form fails with the dedicated version-invalid condition for every id,
patch and store (before any store access), and a string of that prefix
form never raises version-invalid. -/
theorem claim2_version_pattern_amended (tag : String) :
    (versionPatternTest tag = true ↔ quotedIntPrefixForm tag) ∧
    (versionPatternTest tag = false →
      ∀ (id : ℤ) (u : SchuhUpdate) (st : Store),
        SchuhWriteService.update (some id) u tag st =
          Except.error ServiceError.VersionInvalid) ∧
    (versionPatternTest tag = true →
      ∀ (id : ℤ) (u : SchuhUpdate) (st : Store),
        SchuhWriteService.update (some id) u tag st ≠
          Except.error ServiceError.VersionInvalid) := by
  refine ⟨versionPatternTest_iff tag, fun hf id u st => ?_, fun ht id u st => ?_⟩
  · simp [SchuhWriteService.update, SchuhWriteService.validateUpdate, hf]
  · cases hget : getSchuh st id with
    | none =>
      simp [SchuhWriteService.update, SchuhWriteService.validateUpdate, ht,
        SchuhService.findById, hget]
    | some sch =>
      cases hp : jsParseInt (tag.data.tail.dropLast) with
      | none =>
        simp [SchuhWriteService.update, SchuhWriteService.validateUpdate, ht,
          SchuhService.findById, hget, hp, storeUpdate]
      | some v =>
        by_cases hcmp : v < sch.version
        · simp [SchuhWriteService.update, SchuhWriteService.validateUpdate, ht,
            SchuhService.findById, hget, hp, if_pos hcmp]
        · simp [SchuhWriteService.update, SchuhWriteService.validateUpdate, ht,
            SchuhService.findById, hget, hp, if_neg hcmp, storeUpdate]

/-- Counterexample for claim C2: the claim demands that a well-formed quoted prefix
followed by trailing characters fail with version-invalid, but the tag
"5"x (trailing x) passes the start-anchored pattern and the whole update
succeeds against the sample store. -/
theorem claim2_counterexample :
    versionPatternTest "\"5\"x" = true ∧
    SchuhWriteService.update (some 1) {} "\"5\"x" sampleStore ≠
      Except.error ServiceError.VersionInvalid ∧
    (SchuhWriteService.update (some 1) {} "\"5\"x" sampleStore).isOk = true := by
  exact ⟨by decide, by decide, by decide⟩

/-- Witness for claim C2: the malformed tag abc fails with version-invalid for a
concrete store, and the well-formed tag "5" never raises version-invalid
there. -/
theorem claim2_witness :
    versionPatternTest "abc" = false ∧
    SchuhWriteService.update (some 1) {} "abc" sampleStore =
      Except.error ServiceError.VersionInvalid ∧
    versionPatternTest "\"5\"" = true ∧
    SchuhWriteService.update (some 1) {} "\"5\"" sampleStore ≠
      Except.error ServiceError.VersionInvalid :=
  ⟨by decide,
    (claim2_version_pattern_amended "abc").2.1 (by decide) 1 {} sampleStore,
    by decide,
    (claim2_version_pattern_amended "\"5\"").2.2 (by decide) 1 {} sampleStore⟩

/-! ## Theorems about the Predicate Builder -/

lemma mem_setDedupAux (x : String) (seen l : List String) :
    x ∈ setDedupAux seen l ↔ x ∈ l ∧ x ∉ seen := by
  induction l generalizing seen with
  | nil => simp [setDedupAux]
  | cons t ts ih =>
    by_cases h : seen.contains t
    · rw [setDedupAux, if_pos h, ih]
      have ht : t ∈ seen := by simpa using h
      simp only [List.mem_cons]
      constructor
      · rintro ⟨hx, hs⟩
        exact ⟨Or.inr hx, hs⟩
      · rintro ⟨hx | hx, hs⟩
        · exact absurd (hx ▸ ht) hs
        · exact ⟨hx, hs⟩
    · rw [setDedupAux, if_neg h]
      have ht : t ∉ seen := by simpa using h
      simp only [List.mem_cons, ih]
      constructor
      · rintro (rfl | ⟨hx, hs⟩)
        · exact ⟨Or.inl rfl, ht⟩
        · exact ⟨Or.inr hx, fun hmem => hs (Or.inr hmem)⟩
      · rintro ⟨hx, hs⟩
        by_cases hxt : x = t
        · exact Or.inl hxt
        · rcases hx with rfl | hx2
          · exact absurd rfl hxt
          · refine Or.inr ⟨hx2, ?_⟩
            rintro (h | h)
            · exact hxt h
            · exact hs h

lemma evalTags_setDedup (l : List String) (r : Schuh) :
    evalTags (setDedup l) r = evalTags l r := by
  rw [Bool.eq_iff_iff]
  simp [evalTags, List.any_eq_true, setDedup, mem_setDedupAux]

lemma evalTags_variants (l : List String) (r : Schuh) :
    evalTags (l.flatMap fun t => [t, strToLower t, strToUpper t]) r =
      l.any fun t =>
        r.schlagwoerter.contains t || r.schlagwoerter.contains (strToLower t) ||
          r.schlagwoerter.contains (strToUpper t) := by
  simp [evalTags, List.any_flatMap, Bool.or_assoc]

lemma evalBase_empty (r : Schuh) : evalBase {} r = true := rfl

/-- A tag flag counts as truthy exactly when its lowercased value is the
string true. -/
def flagTruthy (ps : Suchparameter) (flag : String) : Prop :=
  (lookupParam ps flag).map strToLower = some "true"

instance (ps : Suchparameter) (flag : String) : Decidable (flagTruthy ps flag) := by
  unfold flagTruthy
  infer_instance

lemma requestedTags_ne_nil_iff (ps : Suchparameter) :
    requestedTags ps ≠ [] ↔
      (flagTruthy ps "sport" ∨ flagTruthy ps "vintage" ∨ flagTruthy ps "streetware") := by
  unfold requestedTags WhereBuilder.buildSchlagwoerter flagTruthy
  by_cases h1 : (lookupParam ps "sport").map strToLower = some "true" <;>
    by_cases h2 : (lookupParam ps "vintage").map strToLower = some "true" <;>
      by_cases h3 : (lookupParam ps "streetware").map strToLower = some "true" <;>
        simp [h1, h2, h3]

/-- Claim C3: whenever at least one of the three tag flags is truthy, the built
predicate is the conjunction of all scalar field conditions with an
OR-across-requested-tags condition in which a stored tag matches in its
original, lowercase or uppercase form; with no truthy flag the predicate
carries no tag condition at all. -/
theorem claim3_tag_predicate (ps : Suchparameter) :
    ((flagTruthy ps "sport" ∨ flagTruthy ps "vintage" ∨ flagTruthy ps "streetware") →
      ∀ r : Schuh,
        evalWhere (WhereBuilder.build ps) r =
          (evalBase (WhereBuilder.buildRest ps) r &&
            (requestedTags ps).any fun t =>
              r.schlagwoerter.contains t ||
                r.schlagwoerter.contains (strToLower t) ||
                  r.schlagwoerter.contains (strToUpper t))) ∧
    (¬(flagTruthy ps "sport" ∨ flagTruthy ps "vintage" ∨ flagTruthy ps "streetware") →
      WhereBuilder.build ps = Where.base (WhereBuilder.buildRest ps)) := by
  constructor
  · intro h r
    have hne : requestedTags ps ≠ [] := (requestedTags_ne_nil_iff ps).mpr h
    have hlen : 0 < (requestedTags ps).length := List.length_pos.mpr hne
    unfold WhereBuilder.build
    rw [if_pos hlen]
    by_cases hbase : WhereBuilder.buildRest ps = {}
    · rw [if_pos hbase, hbase]
      show evalTags _ r = _
      rw [evalTags_setDedup, evalTags_variants, evalBase_empty, Bool.true_and]
    · rw [if_neg hbase]
      show (evalBase _ r && evalTags _ r) = _
      rw [evalTags_setDedup, evalTags_variants]
  · intro h
    have h0 : requestedTags ps = [] := by
      by_contra hc
      exact h ((requestedTags_ne_nil_iff ps).mp hc)
    unfold WhereBuilder.build
    rw [h0]
    simp

/-- Witness for claim C3: a mapping with a scalar field and the sport flag, checked
against the sample record. -/
theorem claim3_witness :
    flagTruthy [("modell", "Adi"), ("sport", "true")] "sport" ∧
    evalWhere (WhereBuilder.build [("modell", "Adi"), ("sport", "true")]) sampleSchuh =
      (evalBase (WhereBuilder.buildRest [("modell", "Adi"), ("sport", "true")]) sampleSchuh &&
        (requestedTags [("modell", "Adi"), ("sport", "true")]).any fun t =>
          sampleSchuh.schlagwoerter.contains t ||
            sampleSchuh.schlagwoerter.contains (strToLower t) ||
              sampleSchuh.schlagwoerter.contains (strToUpper t)) :=
  ⟨by decide, (claim3_tag_predicate _).1 (Or.inl (by decide)) sampleSchuh⟩

/-! ## Theorems about the Read Service -/

lemma findAll_total (pg : Pageable) (st : Store) (sl : Slice)
    (h : SchuhService.findAll pg st = Except.ok sl) :
    sl.totalElements = SchuhService.count st := by
  unfold SchuhService.findAll at h
  split at h
  · exact absurd h (by simp)
  · obtain rfl := Except.ok.inj h
    rfl

/-- Claim C7: whenever find returns a slice, its totalElements figure is the
unconditional total count of all records in the store (the separate
filterless count), independent of the current filter. -/
theorem claim7_total_is_unfiltered_count (sp : Option Suchparameter) (pg : Pageable)
    (st : Store) (sl : Slice) (h : SchuhService.find sp pg st = Except.ok sl) :
    sl.totalElements = SchuhService.count st := by
  cases sp with
  | none => exact findAll_total pg st sl h
  | some ps =>
    by_cases hlen : ps.length = 0
    · simp only [SchuhService.find, hlen, if_true] at h
      exact findAll_total pg st sl h
    · by_cases hchk : (!SchuhService.checkKeys (ps.map Prod.fst) ||
          !SchuhService.checkEnums ps) = true
      · simp only [SchuhService.find, hlen, hchk, if_false, if_true] at h
        exact absurd h (by simp)
      · by_cases hemp :
            (applyPage (st.schuhe.filter (evalWhere (WhereBuilder.build ps))) pg).isEmpty = true
        · simp only [SchuhService.find, hlen, hchk, hemp, if_false, if_true] at h
          exact absurd h (by simp)
        · simp only [SchuhService.find, hlen, hchk, hemp, if_false] at h
          obtain rfl := Except.ok.inj h
          rfl

/-- Witness for claim C7: a filter matching one of the two stored records still
reports totalElements 2, the unfiltered count. -/
theorem claim7_witness :
    SchuhService.find (some [("modell", "Adidas")]) { number := 0, size := 5 } sampleStore =
      Except.ok { content := [sampleSchuh], totalElements := 2 } ∧
    ({ content := [sampleSchuh], totalElements := 2 } : Slice).totalElements =
      SchuhService.count sampleStore :=
  ⟨by decide,
    claim7_total_is_unfiltered_count (some [("modell", "Adidas")])
      { number := 0, size := 5 } sampleStore
      { content := [sampleSchuh], totalElements := 2 } (by decide)⟩

/-- Claim C8: a non-empty search-parameter mapping with at least one key that is
neither in the recognized-name list nor one of the three tag flags makes
find fail with NotFound, for every pageable and every store. -/
theorem claim8_unrecognized_key (ps : Suchparameter) (k : String)
    (hk : k ∈ ps.map Prod.fst)
    (hname : k ∉ suchparameterNamen)
    (h1 : k ≠ "sport") (h2 : k ≠ "vintage") (h3 : k ≠ "streetware") :
    ∀ (pg : Pageable) (st : Store),
      SchuhService.find (some ps) pg st = Except.error ServiceError.NotFound := by
  intro pg st
  have hps : ¬ps.length = 0 := by
    cases ps with
    | nil => simp at hk
    | cons a l => simp
  have hck : SchuhService.checkKeys (ps.map Prod.fst) = false := by
    apply Bool.eq_false_iff.mpr
    intro hall
    rw [SchuhService.checkKeys, List.all_eq_true] at hall
    have hkk := hall k hk
    simp [hname, h1, h2, h3] at hkk
  simp [SchuhService.find, hps, hck]

/-- Witness for claim C8: the unrecognized key foo. -/
theorem claim8_witness :
    ("foo" ∈ ([("foo", "1")] : Suchparameter).map Prod.fst) ∧
    SchuhService.find (some [("foo", "1")]) { number := 0, size := 5 } sampleStore =
      Except.error ServiceError.NotFound :=
  ⟨by decide,
    claim8_unrecognized_key [("foo", "1")] "foo" (by decide) (by decide)
      (by decide) (by decide) (by decide) { number := 0, size := 5 } sampleStore⟩

/-- Claim C9: find validates the typ value against the five exact canonical
spellings and fails with NotFound for every other casing, while the
Predicate Builder itself maps typ values onto the enumeration
case-insensitively — the two entry points differ in strictness. -/
theorem claim9_typ_two_entry_points :
    (∀ (ps : Suchparameter) (v : String), lookupParam ps "typ" = some v →
      v ∉ ["Sneaker", "Laufschuh", "Tennisschuh", "Freizeitschuh", "Skateschuh"] →
      ∀ (pg : Pageable) (st : Store),
        SchuhService.find (some ps) pg st = Except.error ServiceError.NotFound) ∧
    (∀ v : String, (WhereBuilder.mapTyp v).isSome = true ↔
      strToLower v ∈ ["sneaker", "laufschuh", "tennisschuh", "freizeitschuh", "skateschuh"]) ∧
    WhereBuilder.mapTyp "sneaker" = some Schuhtyp.Sneaker ∧
    WhereBuilder.mapTyp "SNEAKER" = some Schuhtyp.Sneaker := by
  refine ⟨?_, ?_, by decide, by decide⟩
  · intro ps v hlook hv pg st
    have hps : ¬ps.length = 0 := by
      cases ps with
      | nil => simp [lookupParam] at hlook
      | cons a l => simp
    have hce : SchuhService.checkEnums ps = false := by
      apply Bool.eq_false_iff.mpr
      intro htrue
      rw [SchuhService.checkEnums, hlook] at htrue
      simp only [Bool.or_eq_true, beq_iff_eq] at htrue
      rcases htrue with ((((h | h) | h) | h) | h) <;> exact hv (by simp [h])
    simp [SchuhService.find, hps, hce]
  · intro v
    unfold WhereBuilder.mapTyp
    split_ifs <;> simp_all

/-- Witness for claim C9: the lowercase value sneaker is rejected by find but
accepted by the Predicate Builder. -/
theorem claim9_witness :
    lookupParam [("typ", "sneaker")] "typ" = some "sneaker" ∧
    SchuhService.find (some [("typ", "sneaker")]) { number := 0, size := 5 } sampleStore =
      Except.error ServiceError.NotFound ∧
    (WhereBuilder.mapTyp "sneaker").isSome = true :=
  ⟨by decide,
    claim9_typ_two_entry_points.1 [("typ", "sneaker")] "sneaker" (by decide) (by decide)
      { number := 0, size := 5 } sampleStore,
    (claim9_typ_two_entry_points.2.1 "sneaker").mpr (by decide)⟩

/-! ## Theorems about the Write Service (attachment and creation) -/

/-- Claim C5 divergence: `addFile` for an id without a product does not fail
with NotFound — the `findUnique` result is bound without `await`, so the
null check compares a pending Promise and its branch is dead; the missing
product surfaces as a store-level foreign-key failure instead.  For an
existing product the claim's second half holds: calling `addFile` twice
leaves exactly one attachment row for that product. -/
theorem claim5_addfile_existence_bug :
    SchuhWriteService.addFile (fun _ => none) 999 [] "f.bin" 0 sampleStore =
      Except.error ServiceError.StoreFailure ∧
    SchuhWriteService.addFile (fun _ => none) 999 [] "f.bin" 0 sampleStore ≠
      Except.error ServiceError.NotFound ∧
    ((do
      let r1 ← SchuhWriteService.addFile (fun _ => none) 1 [7] "a.png" 1 sampleStore
      let r2 ← SchuhWriteService.addFile (fun _ => none) 1 [8] "b.png" 1 r1.2
      pure ((r2.2.files.filter fun f => f.schuhId == 1).length)) =
        Except.ok 1) := by
  exact ⟨by decide, by decide, by decide⟩

/-- Claim C6: when the uniqueness check passes and the insert commits, a failing
notification sink does not fail create, does not roll the insert back, and
create returns the new identifier — the outcome is identical whether the
sink rejects or not. -/
theorem claim6_notification_best_effort (schuh : SchuhCreate) (st : Store)
    (neu : Schuh) (st2 : Store)
    (hval : SchuhWriteService.validateCreate schuh st = Except.ok ())
    (hins : storeCreate schuh st = Except.ok (neu, st2)) :
    SchuhWriteService.create true schuh st = Except.ok (neu.id, st2) ∧
    SchuhWriteService.create true schuh st = SchuhWriteService.create false schuh st ∧
    neu ∈ st2.schuhe := by
  have hsend : ∀ (b : Bool) (id : ℤ) (m : String),
      SchuhWriteService.sendmail b id m = Except.ok () := by
    intro b id m
    cases b <;> rfl
  refine ⟨?_, ?_, ?_⟩
  · simp only [SchuhWriteService.create, hval, hins, hsend]
  · simp only [SchuhWriteService.create, hval, hins, hsend]
  · cases ha : schuh.artikelnummer with
    | none =>
      rw [storeCreate, ha] at hins
      exact absurd hins (by simp)
    | some a =>
      rw [storeCreate, ha] at hins
      have hp := Except.ok.inj hins
      injection hp with h1 h2
      subst h1
      subst h2
      simp

/-- A concrete create payload whose article code is not yet stored. -/
def sampleCreate : SchuhCreate :=
  { artikelnummer := some "SH100-NEU", bewertung := 2, typ := some Schuhtyp.Sneaker,
    preis := 10, rabattsatz := 0, verfuegbar := true, erscheinungsdatum := none,
    homepage := none, schlagwoerter := ["sport"], modell := "Modellpost" }

/-- The row the store creates for `sampleCreate`. -/
def sampleCreated : Schuh :=
  { id := 1000, version := 0, artikelnummer := "SH100-NEU", bewertung := 2,
    typ := some Schuhtyp.Sneaker, preis := 10, rabattsatz := 0, verfuegbar := true,
    erscheinungsdatum := none, homepage := none, schlagwoerter := ["sport"],
    modell := "Modellpost" }

/-- The sample store after that insert committed. -/
def sampleStoreAfterCreate : Store :=
  { schuhe := [sampleSchuh, sampleSchuh2, sampleCreated], files := [],
    nextId := 1001, nextFileId := 1000 }

/-- Witness for claim C6: a concrete create whose insert commits behaves identically
with a rejecting and a non-rejecting notification sink, returning the new
identifier 1000. -/
theorem claim6_witness :
    SchuhWriteService.validateCreate sampleCreate sampleStore = Except.ok () ∧
    storeCreate sampleCreate sampleStore = Except.ok (sampleCreated, sampleStoreAfterCreate) ∧
    SchuhWriteService.create true sampleCreate sampleStore =
      Except.ok (sampleCreated.id, sampleStoreAfterCreate) ∧
    SchuhWriteService.create true sampleCreate sampleStore =
      SchuhWriteService.create false sampleCreate sampleStore :=
  ⟨by decide, by decide,
    (claim6_notification_best_effort sampleCreate sampleStore sampleCreated
      sampleStoreAfterCreate (by decide) (by decide)).1,
    (claim6_notification_best_effort sampleCreate sampleStore sampleCreated
      sampleStoreAfterCreate (by decide) (by decide)).2.1⟩
